import Mathlib

/-!
Verification of the subtitle acquisition & translation pipeline of
KurdForest (`src/utils/subtitle.js`), shallowly embedded in Lean 4.

Subtitle documents are modelled as `List Char` (the raw text); file-system
paths as `String`.  Effectful code (the pipeline orchestrator
`fetchAndTranslateSubtitle`) is modelled by explicit state passing over a
file-system record, with the outbound network modelled by an environment of
oracles and an explicit count of outbound calls.
-/

namespace KurdForest

/-- Whitespace characters relevant to JS `String.prototype.trim` for the
characters that can occur inside a single line (the document is split on
newline first). -/
def isWs (c : Char) : Bool :=
  c = ' ' || c = '\t' || c = '\r' || c = '\n' || c = '\x0c' || c = '\x0b'

/-- JS `\d`: the ASCII digits. -/
def isDigitC (c : Char) : Bool :=
  '0' ≤ c && c ≤ '9'

/-- JS `line.trim()` on a line represented as a character list. -/
def trimL (l : List Char) : List Char :=
  ((l.dropWhile isWs).reverse.dropWhile isWs).reverse

/-- Split a character list on `'\n'`, exactly like JS `content.split('\n')`
(the result always has one more element than the number of newlines). -/
def splitOnNl : List Char → List (List Char)
  | [] => [[]]
  | c :: cs =>
    if c = '\n' then [] :: splitOnNl cs
    else
      match splitOnNl cs with
      | [] => [[c]]
      | l :: ls => (c :: l) :: ls

/-- JS `lines.join('\n')`. -/
def joinLines : List (List Char) → List Char
  | [] => []
  | [l] => l
  | l :: ls => l ++ '\n' :: joinLines ls

/-! ### Format converter (`srtToVtt`, src/utils/subtitle.js lines 35-39)

JS performs the global regex replace
`/(\d{2}):(\d{2}):(\d{2}),(\d{3})/g → '$1:$2:$3.$4'` over the whole content:
left-to-right, at each position try to match the fixed 12-character pattern;
on a match emit it with the comma replaced by a period and continue after the
match, otherwise emit one character and advance by one.  Implemented with
explicit fuel (one unit per consumed position) so it is structurally
recursive; `replaceTs` supplies fuel `l.length`, which is always enough since
every step consumes at least one character. -/

def nthIsDigit : List Char → Nat → Bool
  | [], _ => false
  | c :: _, 0 => isDigitC c
  | _ :: cs, i+1 => nthIsDigit cs i

def nthIs : List Char → Nat → Char → Bool
  | [], _, _ => false
  | c :: _, 0, target => c == target
  | _ :: cs, i+1, target => nthIs cs i target

/-- Does the fixed 12-character pattern `\d\d:\d\d:\d\d,\d\d\d` match at the
head of `l`?  (One position of the JS global regex scan.) -/
def tsAt (l : List Char) : Bool :=
  nthIsDigit l 0 && nthIsDigit l 1 && nthIs l 2 ':' && nthIsDigit l 3 &&
  nthIsDigit l 4 && nthIs l 5 ':' && nthIsDigit l 6 && nthIsDigit l 7 &&
  nthIs l 8 ',' && nthIsDigit l 9 && nthIsDigit l 10 && nthIsDigit l 11

/-- Fuel-driven scanner for the global timestamp replace: on a match emit
the 12 matched characters with the comma (position 8) replaced by a period
(the `'$1:$2:$3.$4'` template) and continue after the match, otherwise emit
one character and advance by one. -/
def replaceTsF : Nat → List Char → List Char
  | 0, l => l
  | _+1, [] => []
  | fuel+1, c :: cs =>
    if tsAt (c :: cs) then
      (c :: cs).take 8 ++ '.' :: ((c :: cs).drop 9).take 3 ++
        replaceTsF fuel ((c :: cs).drop 12)
    else c :: replaceTsF fuel cs

/-- A 12-character SRT/VTT timestamp `HH:MM:SS{sep}mmm`. -/
def tsChars (h1 h2 m1 m2 s1 s2 d1 d2 d3 : Char) (sep : Char) : List Char :=
  [h1, h2, ':', m1, m2, ':', s1, s2, sep, d1, d2, d3]

/-- All nine payload characters of a timestamp are ASCII digits. -/
@[reducible] def tsDigits (h1 h2 m1 m2 s1 s2 d1 d2 d3 : Char) : Prop :=
  (isDigitC h1 && isDigitC h2 && isDigitC m1 && isDigitC m2 && isDigitC s1 &&
   isDigitC s2 && isDigitC d1 && isDigitC d2 && isDigitC d3) = true

/-- JS `content.replace(/(\d{2}):(\d{2}):(\d{2}),(\d{3})/g, '$1:$2:$3.$4')`. -/
def replaceTs (l : List Char) : List Char := replaceTsF l.length l

/-- Model of `srtToVtt` (src/utils/subtitle.js): prepend `'WEBVTT\n\n'` and apply the
global timestamp replace to the entire content. -/
def srtToVtt (srtContent : List Char) : List Char :=
  "WEBVTT\n\n".toList ++ replaceTs srtContent

/-! ### Line classification (filter in `translateSubtitle`, lines 88-91) -/

/-- Does `l` start with the pattern `pat`? -/
def startsWithSeq : List Char → List Char → Bool
  | [], _ => true
  | _ :: _, [] => false
  | p :: ps, c :: cs => p == c && startsWithSeq ps cs

/-- JS `line.includes(pat)`: `pat` occurs as a contiguous subsequence. -/
def containsSeq (pat : List Char) : List Char → Bool
  | [] => startsWithSeq pat []
  | c :: cs => startsWithSeq pat (c :: cs) || containsSeq pat cs

/-- JS `/^\d+$/.test(line)`: a pure cue-index line (one or more digits). -/
def isIndexLine (l : List Char) : Bool :=
  !l.isEmpty && l.all isDigitC

/-- The translatability test of `translateSubtitle`:
`line.trim() && !line.includes('-->') && !/^\d+$/.test(line)`. -/
def translatable (l : List Char) : Bool :=
  !(trimL l).isEmpty && !containsSeq "-->".toList l && !isIndexLine l

/-! ### Translation engine (`translateTextWithQueue` / `translateSubtitle`) -/

/-- Outcome of one outbound translation HTTP call: the fetch may throw or
return non-ok status (`fail`), or return a JSON body whose `translation`
field is absent or present. -/
inductive TrResp
  | fail : TrResp
  | ok : Option (List Char) → TrResp
deriving DecidableEq

/-- The value `translateTextWithQueue` resolves with (lines 48-78): on any
error the original text (`resolve(text)` in the catch), on success
`data.translation || text` (JS falsy: an absent field or an empty string
falls back to `text`). -/
def resolveLine (resp : TrResp) (text : List Char) : List Char :=
  match resp with
  | .fail => text
  | .ok none => text
  | .ok (some t) => if t.isEmpty then text else t

/-- JS `[...new Set(xs)]`: distinct elements in first-occurrence order.
`seen` accumulates the elements already emitted. -/
def uniqFirstAux : List (List Char) → List (List Char) → List (List Char)
  | _, [] => []
  | seen, a :: l =>
    if a ∈ seen then uniqFirstAux seen l else a :: uniqFirstAux (a :: seen) l

def uniqFirst (ls : List (List Char)) : List (List Char) := uniqFirstAux [] ls

/-- The translatable lines of a document, in document order with
multiplicity (the `lines` array of `translateSubtitle`, lines 89-91). -/
def translatableLines (content : List Char) : List (List Char) :=
  (splitOnNl content).filter translatable

/-- The `uniqueLines` array of `translateSubtitle` (line 96). -/
def uniqueLines (content : List Char) : List (List Char) :=
  uniqFirst (translatableLines content)

/-- The `translationMap` built from the settled results (lines 99-116):
every promise fulfills (`translateTextWithQueue` never rejects), so the map
associates each unique line with its resolved value. -/
def buildMap (tr : List Char → TrResp) (content : List Char) :
    List (List Char × List Char) :=
  (uniqueLines content).map (fun l => (l, resolveLine (tr l) l))

/-- Association-list lookup (JS `Map.prototype.get`). -/
def lookupTr (m : List (List Char × List Char)) (l : List Char) :
    Option (List Char) :=
  match m with
  | [] => none
  | (k, v) :: rest => if k = l then some v else lookupTr rest l

/-- One line of the reconstruction step (lines 122-127): a translatable line
becomes `translationMap.get(line) || line` (missing key or empty string —
both falsy — fall back to the original line), every other line is returned
unchanged. -/
def substLine (m : List (List Char × List Char)) (l : List Char) : List Char :=
  if translatable l then
    match lookupTr m l with
    | none => l
    | some v => if v.isEmpty then l else v
  else l

/-- The reconstruction of `translateSubtitle` (lines 120-128):
`content.split('\n').map(...).join('\n')`. -/
def reconstruct (m : List (List Char × List Char)) (content : List Char) :
    List Char :=
  joinLines ((splitOnNl content).map (substLine m))

/-- Model of `translateSubtitle` (lines 88-129), parametrised by the per-line
translation oracle `tr`. -/
def translateSubtitle (tr : List Char → TrResp) (content : List Char) :
    List Char :=
  reconstruct (buildMap tr content) content

/-- The distinct line texts for which one `translateSubtitle` run issues an
outbound translation call: unique lines whose exact (untrimmed) text is not
already in the process-wide `translationCache` (lines 43-46; the cache key
is `` `${sourceLang}-${targetLang}-${text}` `` with the language pair fixed
per run, so the cache is modelled as the set of cached texts). -/
def serviceCalls (cache : List (List Char)) (content : List Char) :
    List (List Char) :=
  (uniqueLines content).filter (fun l => !(cache.contains l))

/-! ### Pipeline orchestrator (`fetchAndTranslateSubtitle`, lines 145-201)

The orchestrator is effectful; it is modelled as a state transformer over an
explicit file-system record, with the outbound network modelled by an
environment of oracles (`Env`) and an explicit count of outbound calls.  The
translation-cache state used for call counting is the cache at the start of
the attempt. -/

inductive MType
  | movie
  | tv
deriving DecidableEq

/-- One element of the provider search result (`wyzie-lib`
`searchSubtitles`): the fields the code consults. -/
structure SubEntry where
  language : String
  url : String
deriving DecidableEq

/-- Oracles for the outbound network: the IMDb-id lookup result
(`fetchImdbId` swallows failures, returning `none`), the provider search and
the subtitle download per attempt index, and the per-line translation
outcome. -/
structure Env where
  imdb : Option String
  search : Nat → Except String (List SubEntry)
  download : Nat → String → Except String (List Char)
  translate : List Char → TrResp

/-- The file-system state: written files (newest first) and created
directories. -/
structure FS where
  files : List (String × List Char)
  dirs : List String
deriving DecidableEq

def lookupFile : List (String × List Char) → String → Option (List Char)
  | [], _ => none
  | (k, v) :: rest, p => if k = p then some v else lookupFile rest p

def readFile (fs : FS) (p : String) : Option (List Char) :=
  lookupFile fs.files p

/-- JS `fs.existsSync` on an artifact path. -/
def fileExists (fs : FS) (p : String) : Bool :=
  (readFile fs p).isSome

/-- JS `fs.writeFileSync`. -/
def writeFile (fs : FS) (p : String) (content : List Char) : FS :=
  { fs with files := (p, content) :: fs.files }

/-- Model of `ensureDir` (lines 22-26): `fs.mkdirSync(dir, {recursive: true})` when
the directory is missing; `dirs` records the created folder paths. -/
def ensureDir (fs : FS) (d : String) : FS :=
  if d ∈ fs.dirs then fs else { fs with dirs := d :: fs.dirs }

def BASE_DIR : String := "subtitles"

/-- Model of `folderPath` (lines 149-151 and 204-206): `path.join` of the base
directory with `movies/{tmdbId}` or
`tvshows/{tmdbId}/season{season}/episode{episode}`. -/
def folderPath (tmdbId : String) : MType → Nat → Nat → String
  | .movie, _, _ => BASE_DIR ++ "/movies/" ++ tmdbId
  | .tv, season, episode =>
    BASE_DIR ++ "/tvshows/" ++ tmdbId ++ "/season" ++ toString season ++
      "/episode" ++ toString episode

/-- Model of `vttPath` (lines 153 and 208): `path.join(folderPath, 'kurdish.vtt')`. -/
def vttPath (tmdbId : String) (type : MType) (season episode : Nat) : String :=
  folderPath tmdbId type season episode ++ "/kurdish.vtt"

/-- The JS result object of `fetchAndTranslateSubtitle` (absent fields are
`none`/`false`). -/
structure RunResult where
  success : Bool
  path : Option String
  fromCache : Bool
  error : Option String
deriving DecidableEq

/-- One iteration of the retry-loop body (lines 166-190) up to the produced
VTT content: search, prefer the `language === 'en'` track else the first,
download, translate, convert.  The `Nat` component counts the outbound
calls of the attempt (search, download, one per uncached unique line). -/
def attemptRun (env : Env) (cache : List (List Char)) (n : Nat) :
    Except String (List Char) × Nat :=
  match env.search n with
  | .error e => (.error e, 1)
  | .ok [] => (.error "No subtitles found", 1)
  | .ok (s0 :: rest) =>
    let sub := (((s0 :: rest).find? (fun s => s.language == "en")).getD s0)
    match env.download n sub.url with
    | .error e => (.error e, 2)
    | .ok srt =>
      (.ok (srtToVtt (translateSubtitle env.translate srt)),
       2 + (serviceCalls cache srt).length)

/-- The retry loop (lines 146-147 and 165-200): up to `retries = 3`
attempts, surfacing the error message of the final failed attempt; the
trailing `return` after the loop (line 200) is unreachable and modelled as
the zero-fuel fallback. -/
def loopAttempts (env : Env) (cache : List (List Char)) :
    Nat → Nat → Except String (List Char) × Nat
  | 0, _ => (.error "Failed after 3 attempts", 0)
  | fuel+1, n =>
    match attemptRun env cache n with
    | (.ok vtt, c) => (.ok vtt, c)
    | (.error e, c) =>
      if fuel = 0 then (.error e, c)
      else
        let r := loopAttempts env cache fuel (n + 1)
        (r.1, c + r.2)

/-- Model of `fetchAndTranslateSubtitle` (lines 145-201): cache check and
short-circuit, directory creation, IMDb-id resolution (one outbound call,
failures swallowed), the retry loop, and the cache write on success.
Returns the JS result object, the new file-system state, and the number of
outbound network calls performed. -/
def fetchAndTranslateSubtitle (env : Env) (cache : List (List Char))
    (fs : FS) (tmdbId : String) (type : MType) (season episode : Nat) :
    RunResult × FS × Nat :=
  let folder := folderPath tmdbId type season episode
  let vtt := vttPath tmdbId type season episode
  if fileExists fs vtt then
    (⟨true, some vtt, true, none⟩, fs, 0)
  else
    let fs1 := ensureDir fs folder
    match loopAttempts env cache 3 0 with
    | (.ok content, c) =>
      (⟨true, some vtt, false, none⟩, writeFile fs1 vtt content, 1 + c)
    | (.error e, c) => (⟨false, none, false, some e⟩, fs1, 1 + c)

/-- Model of `getSubtitlePath` (lines 203-210). -/
def getSubtitlePath (fs : FS) (tmdbId : String) (type : MType)
    (season episode : Nat) : Option String :=
  let vtt := vttPath tmdbId type season episode
  if fileExists fs vtt then some vtt else none

/-- The artifact path convention exactly as the spec's words state it
(`movies/{mediaId}/caption.vtt` or
`series/{mediaId}/season{N}/episode{M}/caption.vtt`), for comparison with
the path the code derives. -/
def specArtifactPath (mediaId : String) : MType → Nat → Nat → String
  | .movie, _, _ => "movies/" ++ mediaId ++ "/caption.vtt"
  | .tv, season, episode =>
    "series/" ++ mediaId ++ "/season" ++ toString season ++ "/episode" ++
      toString episode ++ "/caption.vtt"

/-- The path convention the code actually follows, relative to the base
directory: `movies/{mediaId}/kurdish.vtt` or
`tvshows/{mediaId}/season{N}/episode{M}/kurdish.vtt`. -/
def codeArtifactPath (mediaId : String) : MType → Nat → Nat → String
  | .movie, _, _ => "movies/" ++ mediaId ++ "/kurdish.vtt"
  | .tv, season, episode =>
    "tvshows/" ++ mediaId ++ "/season" ++ toString season ++ "/episode" ++
      toString episode ++ "/kurdish.vtt"

/-! ### Concurrency model of the translation request queue (lines 14-16,
48-86)

JS is single-threaded: the only interleaving points are promise
settlements.  The shared state is the pair (`requestQueue.length`,
`activeRequests`); the atomic events are a call to `translateTextWithQueue`
pushing a request then running `processQueue` (lines 75-76), and a request
settling, which decrements `activeRequests` and runs `processQueue` in its
`finally` block (lines 69-72). -/

def MAX_CONCURRENT_REQUESTS : Nat := 10

structure QState where
  queueLen : Nat
  active : Nat
deriving DecidableEq

/-- Model of `processQueue` (lines 80-86): while the queue is non-empty and capacity
remains, start the next queued request (increment `activeRequests`). -/
def processQueue (s : QState) : QState :=
  if 0 < s.queueLen ∧ s.active < MAX_CONCURRENT_REQUESTS then
    processQueue ⟨s.queueLen - 1, s.active + 1⟩
  else s
termination_by s.queueLen

/-- Atomic events on the shared queue state. -/
inductive QStep : QState → QState → Prop
  | enqueue (s : QState) : QStep s (processQueue ⟨s.queueLen + 1, s.active⟩)
  | settle (s : QState) (h : 0 < s.active) :
      QStep s (processQueue ⟨s.queueLen, s.active - 1⟩)


/-! ## Library lemmas about the embedded definitions -/

theorem splitOnNl_ne_nil (s : List Char) : splitOnNl s ≠ [] := by
  induction s with
  | nil => simp [splitOnNl]
  | cons c cs ih =>
    simp only [splitOnNl]
    split
    · simp
    · cases h : splitOnNl cs with
      | nil => simp
      | cons l ls => simp

/-- Splitting then joining on newline is the identity (JS
`content.split('\n').join('\n') === content`). -/
theorem joinLines_splitOnNl (s : List Char) : joinLines (splitOnNl s) = s := by
  induction s with
  | nil => simp [splitOnNl, joinLines]
  | cons c cs ih =>
    simp only [splitOnNl]
    split
    · rename_i hc
      subst hc
      cases h : splitOnNl cs with
      | nil => exact absurd h (splitOnNl_ne_nil cs)
      | cons l ls =>
        rw [h] at ih
        simp [joinLines, ih]

    · cases h : splitOnNl cs with
      | nil => exact absurd h (splitOnNl_ne_nil cs)
      | cons l ls =>
        rw [h] at ih
        cases ls with
        | nil => simp_all [joinLines]
        | cons l2 ls2 => simp_all [joinLines]

/-- No element produced by `splitOnNl` contains a newline. -/
theorem splitOnNl_no_nl (s : List Char) :
    ∀ l ∈ splitOnNl s, '\n' ∉ l := by
  induction s with
  | nil => simp [splitOnNl]
  | cons c cs ih =>
    intro l hl
    by_cases hc : c = '\n'
    · subst hc
      simp only [splitOnNl, if_pos rfl] at hl
      rcases List.mem_cons.mp hl with h1 | h1
      · subst h1; simp
      · exact ih l h1
    · simp only [splitOnNl, if_neg hc] at hl
      cases h : splitOnNl cs with
      | nil => exact absurd h (splitOnNl_ne_nil cs)
      | cons l0 ls0 =>
        rw [h] at hl
        have hl' : l ∈ (c :: l0) :: ls0 := hl
        rcases List.mem_cons.mp hl' with h1 | h1
        · subst h1
          intro hmem
          rcases List.mem_cons.mp hmem with h2 | h2
          · exact hc h2.symm
          · exact ih l0 (h ▸ List.mem_cons_self l0 ls0) h2
        · exact ih l (h ▸ List.mem_cons_of_mem l0 h1)

/-- A newline-free line splits to the singleton of itself. -/
theorem splitOnNl_of_no_nl (l : List Char) (h : '\n' ∉ l) :
    splitOnNl l = [l] := by
  induction l with
  | nil => rfl
  | cons c cs ih =>
    have hc : ¬ c = '\n' := fun e => h (e ▸ List.mem_cons_self c cs)
    have hcs : '\n' ∉ cs := fun hm => h (List.mem_cons_of_mem c hm)
    simp only [splitOnNl, if_neg hc, ih hcs]

/-- Peeling one newline-free line off the front of a split. -/
theorem splitOnNl_append (l rest : List Char) (h : '\n' ∉ l) :
    splitOnNl (l ++ '\n' :: rest) = l :: splitOnNl rest := by
  induction l with
  | nil => simp [splitOnNl]
  | cons c cs ih =>
    have hc : ¬ c = '\n' := fun e => h (e ▸ List.mem_cons_self c cs)
    have hcs : '\n' ∉ cs := fun hm => h (List.mem_cons_of_mem c hm)
    simp only [List.cons_append, splitOnNl, if_neg hc, List.append_eq, ih hcs]

/-- If no element contains a newline, `splitOnNl` inverts `joinLines`. -/
theorem splitOnNl_joinLines (ls : List (List Char)) (hne : ls ≠ [])
    (h : ∀ l ∈ ls, '\n' ∉ l) : splitOnNl (joinLines ls) = ls := by
  induction ls with
  | nil => exact absurd rfl hne
  | cons l ls ih =>
    cases ls with
    | nil =>
      simpa [joinLines] using splitOnNl_of_no_nl l (h l (by simp))
    | cons l2 ls2 =>
      have h1 : '\n' ∉ l := h l (by simp)
      have h2 : ∀ x ∈ l2 :: ls2, '\n' ∉ x := fun x hx => h x (by simp [hx])
      simp only [joinLines, splitOnNl_append l _ h1]
      rw [ih (by simp) h2]

/-! ### Properties of `uniqFirst` -/

theorem mem_uniqFirstAux (seen l : List (List Char)) (x : List Char) :
    x ∈ uniqFirstAux seen l ↔ x ∈ l ∧ x ∉ seen := by
  induction l generalizing seen with
  | nil => simp [uniqFirstAux]
  | cons a l ih =>
    simp only [uniqFirstAux]
    split
    · rename_i ha
      rw [ih]
      constructor
      · rintro ⟨h1, h2⟩; exact ⟨List.mem_cons_of_mem a h1, h2⟩
      · rintro ⟨h1, h2⟩
        rcases List.mem_cons.mp h1 with h3 | h3
        · exact absurd (h3 ▸ ha) h2
        · exact ⟨h3, h2⟩
    · rename_i ha
      simp only [List.mem_cons, ih]
      constructor
      · rintro (h1 | ⟨h2, h3⟩)
        · subst h1; exact ⟨Or.inl rfl, ha⟩
        · exact ⟨Or.inr h2, fun hx => h3 (Or.inr hx)⟩
      · rintro ⟨h1 | h1, h2⟩
        · exact Or.inl h1
        · rcases eq_or_ne x a with he | he
          · exact Or.inl he
          · exact Or.inr ⟨h1, fun hx => by
              rcases hx with h3 | h3
              · exact he h3
              · exact h2 h3⟩

theorem nodup_uniqFirstAux (seen l : List (List Char)) :
    (uniqFirstAux seen l).Nodup := by
  induction l generalizing seen with
  | nil => simp [uniqFirstAux]
  | cons a l ih =>
    simp only [uniqFirstAux]
    split
    · exact ih seen
    · refine List.nodup_cons.mpr ⟨fun hx => ?_, ih (a :: seen)⟩
      exact ((mem_uniqFirstAux (a :: seen) l a).mp hx).2 (List.mem_cons_self a seen)

theorem nodup_uniqFirst (ls : List (List Char)) : (uniqFirst ls).Nodup :=
  nodup_uniqFirstAux [] ls

theorem mem_uniqFirst (ls : List (List Char)) (x : List Char) :
    x ∈ uniqFirst ls ↔ x ∈ ls := by
  simpa using mem_uniqFirstAux [] ls x

theorem processQueue_active_le (s : QState)
    (h : s.active ≤ MAX_CONCURRENT_REQUESTS) :
    (processQueue s).active ≤ MAX_CONCURRENT_REQUESTS := by
  obtain ⟨q, a⟩ := s
  induction q generalizing a with
  | zero => rw [processQueue]; simpa using h
  | succ q ih =>
    rw [processQueue]
    split
    · rename_i hc
      simp only at hc ⊢
      have : q + 1 - 1 = q := rfl
      simpa [this] using ih (a + 1) hc.2
    · exact h

/-! ### Characterisation of `translateSubtitle` -/

theorem lookupTr_map (f : List Char → List Char) (xs : List (List Char))
    (l : List Char) :
    lookupTr (xs.map (fun x => (x, f x))) l =
      if l ∈ xs then some (f l) else none := by
  induction xs with
  | nil => simp [lookupTr]
  | cons x xs ih =>
    simp only [List.map_cons, lookupTr]
    by_cases h : x = l
    · subst h; simp
    · rw [if_neg h, ih]
      by_cases h2 : l ∈ xs
      · rw [if_pos h2, if_pos (List.mem_cons_of_mem x h2)]
      · rw [if_neg h2, if_neg (by
          intro hm
          rcases List.mem_cons.mp hm with e | e
          · exact h e.symm
          · exact h2 e)]

theorem translatable_ne_nil (l : List Char) (h : translatable l = true) :
    l ≠ [] := by
  intro e
  rw [e] at h
  exact absurd h (by decide)

/-- The function `translateTextWithQueue` never resolves with an empty string when the
input text is non-empty: every fallback path returns the original text. -/
theorem resolveLine_not_empty (resp : TrResp) (text : List Char)
    (h : text ≠ []) : (resolveLine resp text).isEmpty = false := by
  have htext : text.isEmpty = false := by
    cases text with
    | nil => exact absurd rfl h
    | cons a l => rfl
  cases resp with
  | fail => exact htext
  | ok o =>
    cases o with
    | none => exact htext
    | some t =>
      simp only [resolveLine]
      by_cases ht : t.isEmpty = true
      · rw [if_pos ht]; exact htext
      · rw [if_neg ht]; simpa using ht

/-- The substitution applied by `translateSubtitle` to a line of the input
document: translatable lines get the resolved translation of their exact
text (never empty, by `resolveLine_not_empty`), other lines pass through. -/
theorem substLine_buildMap (tr : List Char → TrResp) (content : List Char)
    (l : List Char) (hl : l ∈ splitOnNl content) :
    substLine (buildMap tr content) l =
      if translatable l then resolveLine (tr l) l else l := by
  by_cases ht : translatable l = true
  · have hmem : l ∈ uniqueLines content := by
      unfold uniqueLines
      rw [mem_uniqFirst]
      exact List.mem_filter.mpr ⟨hl, ht⟩
    have hlook : lookupTr (buildMap tr content) l =
        some (resolveLine (tr l) l) := by
      unfold buildMap
      rw [lookupTr_map, if_pos hmem]
    have hne := resolveLine_not_empty (tr l) l (translatable_ne_nil l ht)
    simp [substLine, ht, hlook, hne]
  · simp [substLine, ht]

/-- Per-line behaviour of `translateSubtitle`: the output lines are the
input lines mapped pointwise — each translatable line replaced by the
resolved translation of its exact text, every other line untouched —
provided the resolved translations of the document's lines are newline
free. -/
theorem translateSubtitle_lines (tr : List Char → TrResp) (content : List Char)
    (hnl : ∀ l ∈ splitOnNl content,
      translatable l = true → '\n' ∉ resolveLine (tr l) l) :
    splitOnNl (translateSubtitle tr content) =
      (splitOnNl content).map
        (fun l => if translatable l then resolveLine (tr l) l else l) := by
  unfold translateSubtitle reconstruct
  rw [List.map_congr_left fun l hl => substLine_buildMap tr content l hl]
  apply splitOnNl_joinLines
  · intro hmapnil
    have := splitOnNl_ne_nil content
    simp_all
  · intro x hx
    rcases List.mem_map.mp hx with ⟨l, hl, rfl⟩
    by_cases ht : translatable l = true
    · rw [if_pos ht]; exact hnl l hl ht
    · rw [if_neg ht]; exact splitOnNl_no_nl content l hl

/-! ### Behaviour of the global timestamp rewrite -/

theorem replaceTsF_succ (fuel : Nat) (c : Char) (cs : List Char) :
    replaceTsF (fuel + 1) (c :: cs) =
      if tsAt (c :: cs) then
        (c :: cs).take 8 ++ '.' :: ((c :: cs).drop 9).take 3 ++
          replaceTsF fuel ((c :: cs).drop 12)
      else c :: replaceTsF fuel cs := rfl

theorem replaceTsF_nil (fuel : Nat) : replaceTsF fuel [] = [] := by
  cases fuel <;> rfl

theorem nthIsDigit_short (l : List Char) (i : Nat) (h : l.length ≤ i) :
    nthIsDigit l i = false := by
  induction l generalizing i with
  | nil => rfl
  | cons c cs ih =>
    cases i with
    | zero => simp at h
    | succ i => exact ih i (by simpa using h)

theorem tsAt_length (l : List Char) (h : tsAt l = true) : 12 ≤ l.length := by
  by_contra hlt
  push_neg at hlt
  have h11 : nthIsDigit l 11 = false := nthIsDigit_short l 11 (by omega)
  simp [tsAt, h11] at h

/-- The scanner's result does not depend on the fuel, as long as there is at
least one unit of fuel per remaining character. -/
theorem replaceTsF_fuel (f1 f2 : Nat) (l : List Char) (hf1 : l.length ≤ f1)
    (hf2 : l.length ≤ f2) : replaceTsF f1 l = replaceTsF f2 l := by
  induction f1 generalizing f2 l with
  | zero =>
    have : l = [] := by
      cases l with
      | nil => rfl
      | cons a b => simp at hf1
    subst this
    rw [replaceTsF_nil, replaceTsF_nil]
  | succ f1 ih =>
    cases l with
    | nil => rw [replaceTsF_nil, replaceTsF_nil]
    | cons c cs =>
      cases f2 with
      | zero => simp at hf2
      | succ f2 =>
        rw [replaceTsF_succ, replaceTsF_succ]
        by_cases ht : tsAt (c :: cs) = true
        · rw [if_pos ht, if_pos ht]
          have e1 : ((c :: cs).drop 12).length ≤ f1 := by
            simp only [List.length_drop, List.length_cons] at *
            omega
          have e2 : ((c :: cs).drop 12).length ≤ f2 := by
            simp only [List.length_drop, List.length_cons] at *
            omega
          rw [ih f2 _ e1 e2]
        · rw [if_neg ht, if_neg ht]
          have e1 : cs.length ≤ f1 := by
            simp only [List.length_cons] at hf1
            omega
          have e2 : cs.length ≤ f2 := by
            simp only [List.length_cons] at hf2
            omega
          rw [ih f2 cs e1 e2]

/-- The scan never rewrites at a position whose character is not a digit. -/
theorem replaceTs_cons_nondigit (c : Char) (cs : List Char)
    (hc : isDigitC c = false) : replaceTs (c :: cs) = c :: replaceTs cs := by
  unfold replaceTs
  rw [show (c :: cs).length = cs.length + 1 from rfl, replaceTsF_succ]
  have hts : tsAt (c :: cs) = false := by
    simp [tsAt, nthIsDigit, hc]
  rw [hts]
  simp

/-- A digit-free prefix passes through the global rewrite untouched. -/
theorem replaceTs_skip_nondigits (p rest : List Char)
    (hp : ∀ c ∈ p, isDigitC c = false) :
    replaceTs (p ++ rest) = p ++ replaceTs rest := by
  induction p with
  | nil => simp
  | cons c p ih =>
    have hc : isDigitC c = false := hp c (List.mem_cons_self c p)
    rw [List.cons_append,
      replaceTs_cons_nondigit c _ hc,
      ih (fun x hx => hp x (List.mem_cons_of_mem c hx)),
      List.cons_append]

/-- A well-formed comma timestamp at the head of the scan is rewritten to
the period form, and scanning continues after it. -/
theorem replaceTs_ts_head (h1 h2 m1 m2 s1 s2 d1 d2 d3 : Char) (q : List Char)
    (hd : tsDigits h1 h2 m1 m2 s1 s2 d1 d2 d3) :
    replaceTs (tsChars h1 h2 m1 m2 s1 s2 d1 d2 d3 ',' ++ q) =
      tsChars h1 h2 m1 m2 s1 s2 d1 d2 d3 '.' ++ replaceTs q := by
  have hds : isDigitC h1 = true ∧ isDigitC h2 = true ∧ isDigitC m1 = true ∧
      isDigitC m2 = true ∧ isDigitC s1 = true ∧ isDigitC s2 = true ∧
      isDigitC d1 = true ∧ isDigitC d2 = true ∧ isDigitC d3 = true := by
    simpa [tsDigits, Bool.and_eq_true, and_assoc] using hd
  obtain ⟨e1, e2, e3, e4, e5, e6, e7, e8, e9⟩ := hds
  have hts : tsAt (tsChars h1 h2 m1 m2 s1 s2 d1 d2 d3 ',' ++ q) = true := by
    show (isDigitC h1 && isDigitC h2 && (':' == ':') && isDigitC m1 &&
      isDigitC m2 && (':' == ':') && isDigitC s1 && isDigitC s2 &&
      (',' == ',') && isDigitC d1 && isDigitC d2 && isDigitC d3) = true
    simp [e1, e2, e3, e4, e5, e6, e7, e8, e9]
  unfold replaceTs
  rw [show (tsChars h1 h2 m1 m2 s1 s2 d1 d2 d3 ',' ++ q).length =
    (q.length + 11) + 1 from by simp [tsChars]]
  rw [show tsChars h1 h2 m1 m2 s1 s2 d1 d2 d3 ',' ++ q =
    h1 :: h2 :: ':' :: m1 :: m2 :: ':' :: s1 :: s2 :: ',' :: d1 :: d2 :: d3 :: q from rfl]
  rw [replaceTsF_succ]
  rw [show tsAt (h1 :: h2 :: ':' :: m1 :: m2 :: ':' :: s1 :: s2 :: ',' :: d1 :: d2 :: d3 :: q) = true
    from hts]
  rw [if_pos rfl]
  show h1 :: h2 :: ':' :: m1 :: m2 :: ':' :: s1 :: s2 :: '.' :: d1 :: d2 :: d3 ::
      replaceTsF (q.length + 11) q =
    h1 :: h2 :: ':' :: m1 :: m2 :: ':' :: s1 :: s2 :: '.' :: d1 :: d2 :: d3 ::
      replaceTsF q.length q
  rw [replaceTsF_fuel (q.length + 11) q.length q (by omega) le_rfl]

/-- When every translation call fails, every line resolves to itself and the
document is reproduced unchanged. -/
theorem translateSubtitle_id_of_fail (tr : List Char → TrResp)
    (content : List Char) (h : ∀ l, tr l = TrResp.fail) :
    translateSubtitle tr content = content := by
  unfold translateSubtitle reconstruct
  have hmap : (splitOnNl content).map (substLine (buildMap tr content)) =
      (splitOnNl content).map (fun l => l) := by
    apply List.map_congr_left
    intro l hl
    rw [substLine_buildMap tr content l hl, h l]
    by_cases ht : translatable l = true
    · rw [if_pos ht]; rfl
    · rw [if_neg ht]
  rw [hmap]
  simp only [List.map_id']
  exact joinLines_splitOnNl content

theorem ensureDir_files (fs : FS) (d : String) :
    (ensureDir fs d).files = fs.files := by
  unfold ensureDir
  split <;> rfl

theorem mem_dirs_ensureDir (fs : FS) (d : String) :
    d ∈ (ensureDir fs d).dirs := by
  unfold ensureDir
  split
  · assumption
  · exact List.mem_cons_self d fs.dirs

theorem loopAttempts_succ_err (env : Env) (cache : List (List Char))
    (fuel n : Nat) (e : String) (k : Nat)
    (h : attemptRun env cache n = (Except.error e, k)) (hf : fuel ≠ 0) :
    loopAttempts env cache (fuel + 1) n =
      ((loopAttempts env cache fuel (n + 1)).1,
        k + (loopAttempts env cache fuel (n + 1)).2) := by
  simp [loopAttempts, h, hf]

theorem loopAttempts_one_err (env : Env) (cache : List (List Char)) (n : Nat)
    (e : String) (k : Nat) (h : attemptRun env cache n = (Except.error e, k)) :
    loopAttempts env cache 1 n = (Except.error e, k) := by
  show loopAttempts env cache (0 + 1) n = _
  simp [loopAttempts, h]

/-! ## Claims -/

/-- C2, counterexample: on the document
`1\n00:00:01,000 --> 00:00:02,000\nsee 00:01:02,345 now` the dialogue line
`see 00:01:02,345 now` is not in a timing position, yet the conversion does
not leave it byte-for-byte unmodified: the global regex rewrites the
timestamp-like pattern inside the dialogue line too, so the claim as stated
is false at this input. -/
theorem c2_text_line_rewritten_counterexample :
    srtToVtt ("1\n00:00:01,000 --> 00:00:02,000\nsee 00:01:02,345 now".toList) =
      ("WEBVTT\n\n1\n00:00:01.000 --> 00:00:02.000\nsee 00:01:02.345 now".toList) ∧
    ("see 00:01:02,345 now".toList) ∉
      splitOnNl (srtToVtt
        ("1\n00:00:01,000 --> 00:00:02,000\nsee 00:01:02,345 now".toList)) :=
  ⟨by decide, by decide⟩

/-- C2 (amended): the converter prepends the WebVTT header and rewrites
every occurrence of `HH:MM:SS,mmm` to `HH:MM:SS.mmm` anywhere in the
document — timing positions and text (dialogue) positions alike, so a text
line containing the pattern is rewritten rather than left unmodified: after
any digit-free prefix, a well-formed comma timestamp becomes the period
form and the rewrite continues on the remainder. -/
theorem c2_header_and_global_timestamp_rewrite (p q : List Char)
    (hp : ∀ c ∈ p, isDigitC c = false) (h1 h2 m1 m2 s1 s2 d1 d2 d3 : Char)
    (hd : tsDigits h1 h2 m1 m2 s1 s2 d1 d2 d3) :
    srtToVtt (p ++ tsChars h1 h2 m1 m2 s1 s2 d1 d2 d3 ',' ++ q) =
      "WEBVTT\n\n".toList ++ p ++ tsChars h1 h2 m1 m2 s1 s2 d1 d2 d3 '.' ++
        replaceTs q := by
  unfold srtToVtt
  rw [List.append_assoc, replaceTs_skip_nondigits p _ hp,
    replaceTs_ts_head h1 h2 m1 m2 s1 s2 d1 d2 d3 q hd]
  simp

/-- C2 witness: the amended theorem applied to the dialogue-position
occurrence `see 00:01:02,345 now`. -/
theorem c2_witness :
    srtToVtt ("see 00:01:02,345 now".toList) =
      "WEBVTT\n\nsee 00:01:02.345 now".toList := by
  have h := c2_header_and_global_timestamp_rewrite ("see ".toList)
    (" now".toList) (by decide) '0' '0' '0' '1' '0' '2' '3' '4' '5' (by decide)
  rw [show ("see 00:01:02,345 now".toList) = "see ".toList ++
    tsChars '0' '0' '0' '1' '0' '2' '3' '4' '5' ',' ++ " now".toList from by decide]
  rw [h]
  decide

/-- C3, counterexample: the document `hi\n hi` has two translatable lines
differing only in leading whitespace; the claim says they are the same
distinct line (dedup after trimming) and cause at most one translation
call, but the run issues one outbound call for each of them. -/
theorem c3_trimming_counterexample :
    serviceCalls [] ("hi\n hi".toList) = ["hi".toList, " hi".toList] ∧
    ¬ ((serviceCalls [] ("hi\n hi".toList)).countP
        (fun l => trimL l == "hi".toList) ≤ 1) :=
  ⟨by decide, by decide⟩

/-- C3 (amended): the translation service is invoked at most once per
distinct line text per run, but the deduplication key is the exact
untrimmed string; occurrences differing in leading/trailing whitespace are
distinct keys and may each cause a call. -/
theorem c3_dedup_exact_match (cache : List (List Char)) (content : List Char) :
    (serviceCalls cache content).Nodup ∧
    ∀ t ∈ serviceCalls cache content,
      translatable t = true ∧ cache.contains t = false := by
  constructor
  · exact (nodup_uniqFirst (translatableLines content)).filter _
  · intro t ht
    obtain ⟨hmemu, hc⟩ := List.mem_filter.mp ht
    have hmemt : t ∈ translatableLines content := (mem_uniqFirst _ t).mp hmemu
    obtain ⟨_, htr⟩ := List.mem_filter.mp hmemt
    exact ⟨htr, by simpa using hc⟩

/-- C3 witness: the no-duplicate-call property at a concrete document. -/
theorem c3_witness :
    (serviceCalls [] ("a\nb\na".toList)).Nodup ∧
    translatable ("a".toList) = true := by
  have h := c3_dedup_exact_match [] ("a\nb\na".toList)
  exact ⟨h.1, (h.2 ("a".toList) (by decide)).1⟩

/-- C4: for every document and every assignment of resolved per-line
results (hence regardless of translation completion order), the output has
the same number of lines in the same order: position `i` keeps the input
line byte-for-byte when it is a cue-index/timing/blank line, and holds the
result resolved for the exact text when translatable.  (Hypothesis: the
resolved results are single-line, as translations of single lines are.) -/
theorem c4_line_order_preservation (tr : List Char → TrResp)
    (content : List Char)
    (hnl : ∀ l ∈ splitOnNl content,
      translatable l = true → '\n' ∉ resolveLine (tr l) l) :
    (splitOnNl (translateSubtitle tr content)).length =
      (splitOnNl content).length ∧
    ∀ i : Nat,
      (splitOnNl (translateSubtitle tr content))[i]? =
        ((splitOnNl content)[i]?).map
          (fun l => if translatable l then resolveLine (tr l) l else l) := by
  rw [translateSubtitle_lines tr content hnl]
  exact ⟨by simp, fun i => by simp [List.getElem?_map]⟩

/-- C4 witness at a concrete document and a concrete assignment. -/
theorem c4_witness :
    (splitOnNl (translateSubtitle (fun _ => TrResp.ok (some ['X']))
        ("1\nhello".toList))).length = (splitOnNl ("1\nhello".toList)).length ∧
    (splitOnNl (translateSubtitle (fun _ => TrResp.ok (some ['X']))
        ("1\nhello".toList)))[1]? = some ['X'] := by
  have h := c4_line_order_preservation (fun _ => TrResp.ok (some ['X']))
    ("1\nhello".toList) (by decide)
  exact ⟨h.1, by rw [h.2 1]; decide⟩

/-- C9: falsy translation results fall back to the source text at the
boundary: the reconstruction keeps the original line when the mapped value
is absent or the empty string, and if the translation service succeeds with
no `translation` field (or records the empty string) for a line, every
occurrence of that line in the output is the original source line. -/
theorem c9_falsy_fallback (tr : List Char → TrResp) (content l : List Char)
    (hnl : ∀ x ∈ splitOnNl content,
      translatable x = true → '\n' ∉ resolveLine (tr x) x)
    (hresp : tr l = TrResp.ok none ∨ tr l = TrResp.ok (some [])) :
    (∀ m x, lookupTr m x = none → substLine m x = x) ∧
    (∀ m x, lookupTr m x = some [] → substLine m x = x) ∧
    ∀ i : Nat, (splitOnNl content)[i]? = some l →
      (splitOnNl (translateSubtitle tr content))[i]? = some l := by
  refine ⟨?_, ?_, ?_⟩
  · intro m x hx
    simp [substLine, hx]
  · intro m x hx
    simp [substLine, hx]
  · intro i hi
    rw [translateSubtitle_lines tr content hnl, List.getElem?_map, hi]
    have hline : (if translatable l then resolveLine (tr l) l else l) = l := by
      by_cases ht : translatable l = true
      · rw [if_pos ht]
        rcases hresp with h | h <;> rw [h] <;> simp [resolveLine]
      · rw [if_neg ht]
    simp [hline]

/-- C9 witness: a service that answers with no `translation` field leaves
the dialogue line unchanged in the output. -/
theorem c9_witness :
    (splitOnNl (translateSubtitle (fun _ => TrResp.ok none)
        ("1\nhello".toList)))[1]? = some ("hello".toList) :=
  (c9_falsy_fallback (fun _ => TrResp.ok none) ("1\nhello".toList)
    ("hello".toList) (by decide) (Or.inl rfl)).2.2 1 (by decide)

/-- C5: if every per-line translation call fails, the pipeline run still
succeeds (`success = true`) and the persisted artifact is exactly the
format-converted original source-language text — per-line failures degrade
to the original line and never reach the document-level result. -/
theorem c5_graceful_degradation (env : Env) (cache : List (List Char))
    (fs : FS) (tmdbId : String) (type : MType) (season episode : Nat)
    (sub : SubEntry) (subs : List SubEntry) (srt : List Char)
    (hfail : ∀ l, env.translate l = TrResp.fail)
    (hmiss : fileExists fs (vttPath tmdbId type season episode) = false)
    (hsearch : env.search 0 = Except.ok (sub :: subs))
    (hdl : ∀ u, env.download 0 u = Except.ok srt) :
    (fetchAndTranslateSubtitle env cache fs tmdbId type season episode).1.success
      = true ∧
    readFile
      (fetchAndTranslateSubtitle env cache fs tmdbId type season episode).2.1
      (vttPath tmdbId type season episode) = some (srtToVtt srt) := by
  have htr : translateSubtitle env.translate srt = srt :=
    translateSubtitle_id_of_fail env.translate srt hfail
  have hatt : attemptRun env cache 0 =
      (Except.ok (srtToVtt srt), 2 + (serviceCalls cache srt).length) := by
    simp [attemptRun, hsearch, hdl, htr]
  have hloop : loopAttempts env cache 3 0 =
      (Except.ok (srtToVtt srt), 2 + (serviceCalls cache srt).length) := by
    show loopAttempts env cache (2 + 1) 0 = _
    simp [loopAttempts, hatt]
  simp [fetchAndTranslateSubtitle, hmiss, hloop, readFile, writeFile,
    lookupFile]

/-- C5 witness: a run whose translation oracle always fails still succeeds
and stores the converted original text. -/
theorem c5_witness :
    (fetchAndTranslateSubtitle
      ⟨none, fun _ => Except.ok [⟨"en", "u"⟩], fun _ _ => Except.ok ("hi".toList),
        fun _ => TrResp.fail⟩ [] ⟨[], []⟩ "7" MType.movie 0 0).1.success = true ∧
    readFile
      (fetchAndTranslateSubtitle
        ⟨none, fun _ => Except.ok [⟨"en", "u"⟩], fun _ _ => Except.ok ("hi".toList),
          fun _ => TrResp.fail⟩ [] ⟨[], []⟩ "7" MType.movie 0 0).2.1
      (vttPath "7" MType.movie 0 0) = some (srtToVtt ("hi".toList)) :=
  c5_graceful_degradation _ [] ⟨[], []⟩ "7" MType.movie 0 0 ⟨"en", "u"⟩ []
    ("hi".toList) (fun _ => rfl) (by decide) rfl (fun _ => rfl)

/-- C1: if a run succeeded (and hence persisted or found the artifact), a
second call with identical arguments — under any network environment and
any translation-cache state — is a pure cache hit: it succeeds with
`fromCache = true`, reports the derived artifact path, leaves the file
system untouched (hence the artifact bytes are identical), and performs
zero outbound network calls (no ID resolution, search, download or
translation). -/
theorem c1_idempotent_cache_hit (env env2 : Env)
    (cache cache2 : List (List Char)) (fs : FS) (tmdbId : String)
    (type : MType) (season episode : Nat)
    (h : (fetchAndTranslateSubtitle env cache fs tmdbId type season episode).1.success
      = true) :
    (fetchAndTranslateSubtitle env2 cache2
        (fetchAndTranslateSubtitle env cache fs tmdbId type season episode).2.1
        tmdbId type season episode) =
      (⟨true, some (vttPath tmdbId type season episode), true, none⟩,
        (fetchAndTranslateSubtitle env cache fs tmdbId type season episode).2.1,
        0) := by
  have hex : fileExists
      (fetchAndTranslateSubtitle env cache fs tmdbId type season episode).2.1
      (vttPath tmdbId type season episode) = true := by
    unfold fetchAndTranslateSubtitle at h ⊢
    by_cases hc : fileExists fs (vttPath tmdbId type season episode) = true
    · rw [if_pos hc]
      exact hc
    · rw [if_neg hc] at h ⊢
      revert h
      rcases hl : loopAttempts env cache 3 0 with ⟨e | content, c⟩ <;> intro h
      · exact absurd h (by simp)
      · simp [fileExists, readFile, writeFile, lookupFile]
  set fs1 := (fetchAndTranslateSubtitle env cache fs tmdbId type season episode).2.1
    with hfs1
  unfold fetchAndTranslateSubtitle
  rw [if_pos hex]

/-- C1 witness: with the artifact already on disk, the first call succeeds
and the second call is the described cache hit. -/
theorem c1_witness :
    (fetchAndTranslateSubtitle
      ⟨none, fun _ => Except.error "e", fun _ _ => Except.error "e",
        fun _ => TrResp.fail⟩ []
      ⟨[("subtitles/movies/1/kurdish.vtt", ['x'])], []⟩ "1" MType.movie 0 0).1.success
      = true ∧
    (fetchAndTranslateSubtitle
      ⟨none, fun _ => Except.error "e", fun _ _ => Except.error "e",
        fun _ => TrResp.fail⟩ []
      (fetchAndTranslateSubtitle
        ⟨none, fun _ => Except.error "e", fun _ _ => Except.error "e",
          fun _ => TrResp.fail⟩ []
        ⟨[("subtitles/movies/1/kurdish.vtt", ['x'])], []⟩ "1" MType.movie 0 0).2.1
      "1" MType.movie 0 0) =
      (⟨true, some (vttPath "1" MType.movie 0 0), true, none⟩,
        (fetchAndTranslateSubtitle
          ⟨none, fun _ => Except.error "e", fun _ _ => Except.error "e",
            fun _ => TrResp.fail⟩ []
          ⟨[("subtitles/movies/1/kurdish.vtt", ['x'])], []⟩ "1" MType.movie 0 0).2.1,
        0) :=
  ⟨by decide,
    c1_idempotent_cache_hit _ _ [] [] ⟨[("subtitles/movies/1/kurdish.vtt", ['x'])], []⟩
      "1" MType.movie 0 0 (by decide)⟩

/-- C6: when the provider search (or download) fails on all three attempts,
the run returns `success = false` carrying the last attempt's error
message, and no artifact file is written for the key — the cache write
happens only after search, download, translation and conversion have all
succeeded. -/
theorem c6_retry_exhaustion (env : Env) (cache : List (List Char)) (fs : FS)
    (tmdbId : String) (type : MType) (season episode : Nat)
    (e0 e1 e2 : String) (k0 k1 k2 : Nat)
    (hmiss : fileExists fs (vttPath tmdbId type season episode) = false)
    (h0 : attemptRun env cache 0 = (Except.error e0, k0))
    (h1 : attemptRun env cache 1 = (Except.error e1, k1))
    (h2 : attemptRun env cache 2 = (Except.error e2, k2)) :
    (fetchAndTranslateSubtitle env cache fs tmdbId type season episode).1.success
      = false ∧
    (fetchAndTranslateSubtitle env cache fs tmdbId type season episode).1.error
      = some e2 ∧
    (fetchAndTranslateSubtitle env cache fs tmdbId type season episode).2.1.files
      = fs.files := by
  have l1 : loopAttempts env cache 1 2 = (Except.error e2, k2) :=
    loopAttempts_one_err env cache 2 e2 k2 h2
  have l2 : loopAttempts env cache 2 1 = (Except.error e2, k1 + k2) := by
    show loopAttempts env cache (1 + 1) 1 = _
    rw [loopAttempts_succ_err env cache 1 1 e1 k1 h1 (by decide), l1]
  have l3 : loopAttempts env cache 3 0 = (Except.error e2, k0 + (k1 + k2)) := by
    show loopAttempts env cache (2 + 1) 0 = _
    rw [loopAttempts_succ_err env cache 2 0 e0 k0 h0 (by decide), l2]
  unfold fetchAndTranslateSubtitle
  rw [if_neg (by simp [hmiss]), l3]
  exact ⟨rfl, rfl, ensureDir_files fs _⟩

/-- C6 witness: a provider whose search always fails, with the attempt
index as the error message; the reported error is the third attempt's. -/
theorem c6_witness :
    (fetchAndTranslateSubtitle
      ⟨none, fun n => Except.error (toString n), fun _ _ => Except.error "d",
        fun _ => TrResp.fail⟩ [] ⟨[], []⟩ "9" MType.tv 1 2).1.success = false ∧
    (fetchAndTranslateSubtitle
      ⟨none, fun n => Except.error (toString n), fun _ _ => Except.error "d",
        fun _ => TrResp.fail⟩ [] ⟨[], []⟩ "9" MType.tv 1 2).1.error = some "2" ∧
    (fetchAndTranslateSubtitle
      ⟨none, fun n => Except.error (toString n), fun _ _ => Except.error "d",
        fun _ => TrResp.fail⟩ [] ⟨[], []⟩ "9" MType.tv 1 2).2.1.files
      = (⟨[], []⟩ : FS).files :=
  c6_retry_exhaustion _ [] ⟨[], []⟩ "9" MType.tv 1 2 "0" "1" "2" 1 1 1
    rfl rfl rfl rfl

/-- C7, counterexample: a successful (cache-hit) run for movie id `123`
reports the persisted path `subtitles/movies/123/kurdish.vtt`, which does
not follow the claimed `movies/{mediaId}/caption.vtt` convention, and the
series path uses `tvshows/…/kurdish.vtt`, not
`series/…/caption.vtt`. -/
theorem c7_path_convention_counterexample :
    (fetchAndTranslateSubtitle
      ⟨none, fun _ => Except.error "e", fun _ _ => Except.error "e",
        fun _ => TrResp.fail⟩ []
      ⟨[("subtitles/movies/123/kurdish.vtt", ['x'])], []⟩ "123"
      MType.movie 0 0).1.path = some "subtitles/movies/123/kurdish.vtt" ∧
    "subtitles/movies/123/kurdish.vtt" ≠
      BASE_DIR ++ "/" ++ specArtifactPath "123" MType.movie 0 0 ∧
    vttPath "9" MType.tv 1 2 ≠
      BASE_DIR ++ "/" ++ specArtifactPath "9" MType.tv 1 2 :=
  ⟨by decide, by decide, by decide⟩

/-- C7 (amended): the artifact path is pure and deterministic in the cache
key and follows the convention `movies/{mediaId}/kurdish.vtt` for movies
and `tvshows/{mediaId}/season{N}/episode{M}/kurdish.vtt` for series, under
the subtitles base directory; every successful run reports exactly this
path. -/
theorem c7_path_convention (env : Env) (cache : List (List Char)) (fs : FS)
    (tmdbId : String) (type : MType) (season episode : Nat)
    (h : (fetchAndTranslateSubtitle env cache fs tmdbId type season episode).1.success
      = true) :
    (fetchAndTranslateSubtitle env cache fs tmdbId type season episode).1.path
      = some (vttPath tmdbId type season episode) ∧
    vttPath tmdbId type season episode =
      BASE_DIR ++ "/" ++ codeArtifactPath tmdbId type season episode := by
  constructor
  · unfold fetchAndTranslateSubtitle at h ⊢
    by_cases hc : fileExists fs (vttPath tmdbId type season episode) = true
    · rw [if_pos hc]
    · rw [if_neg hc] at h ⊢
      revert h
      rcases loopAttempts env cache 3 0 with ⟨e | content, c⟩ <;> intro h
      · exact absurd h (by simp)
      · rfl
  · cases type with
    | movie =>
      unfold vttPath folderPath codeArtifactPath
      simp only [String.append_assoc]
      rw [← String.append_assoc "/" "movies/",
        show ("/" : String) ++ "movies/" = "/movies/" from by decide]
    | tv =>
      unfold vttPath folderPath codeArtifactPath
      simp only [String.append_assoc]
      rw [← String.append_assoc "/" "tvshows/",
        show ("/" : String) ++ "tvshows/" = "/tvshows/" from by decide]

/-- C7 witness at a concrete successful (cache-hit) run. -/
theorem c7_witness :
    (fetchAndTranslateSubtitle
      ⟨none, fun _ => Except.error "e", fun _ _ => Except.error "e",
        fun _ => TrResp.fail⟩ []
      ⟨[("subtitles/movies/1/kurdish.vtt", ['x'])], []⟩ "1"
      MType.movie 0 0).1.path = some (vttPath "1" MType.movie 0 0) ∧
    vttPath "1" MType.movie 0 0 =
      BASE_DIR ++ "/" ++ codeArtifactPath "1" MType.movie 0 0 :=
  c7_path_convention _ [] ⟨[("subtitles/movies/1/kurdish.vtt", ['x'])], []⟩
    "1" MType.movie 0 0 (by decide)

/-- C10: on a cache miss the orchestrator records the artifact's directory
creation up front (before the ID resolution and search stages run), so even
a run that ends in failure leaves the directory while writing no file; a
cache-hit run leaves the file system completely unchanged. -/
theorem c10_dirs_created_on_miss (env : Env) (cache : List (List Char))
    (fs : FS) (tmdbId : String) (type : MType) (season episode : Nat) :
    (fileExists fs (vttPath tmdbId type season episode) = false →
      folderPath tmdbId type season episode ∈
        (fetchAndTranslateSubtitle env cache fs tmdbId type season episode).2.1.dirs ∧
      ((fetchAndTranslateSubtitle env cache fs tmdbId type season episode).1.success
          = false →
        (fetchAndTranslateSubtitle env cache fs tmdbId type season episode).2.1.files
          = fs.files)) ∧
    (fileExists fs (vttPath tmdbId type season episode) = true →
      (fetchAndTranslateSubtitle env cache fs tmdbId type season episode).2.1
        = fs) := by
  constructor
  · intro hmiss
    unfold fetchAndTranslateSubtitle
    rw [if_neg (by simp [hmiss])]
    rcases loopAttempts env cache 3 0 with ⟨e | content, c⟩
    · exact ⟨mem_dirs_ensureDir fs _, fun _ => ensureDir_files fs _⟩
    · refine ⟨mem_dirs_ensureDir fs _, fun hfalse => absurd hfalse (by simp)⟩
  · intro hhit
    unfold fetchAndTranslateSubtitle
    rw [if_pos hhit]

/-- C10 witness: a failing run on an empty file system creates the movie
directory and writes no file. -/
theorem c10_witness :
    folderPath "5" MType.movie 0 0 ∈
      (fetchAndTranslateSubtitle
        ⟨none, fun _ => Except.error "e", fun _ _ => Except.error "e",
          fun _ => TrResp.fail⟩ [] ⟨[], []⟩ "5" MType.movie 0 0).2.1.dirs ∧
    (fetchAndTranslateSubtitle
      ⟨none, fun _ => Except.error "e", fun _ _ => Except.error "e",
        fun _ => TrResp.fail⟩ [] ⟨[], []⟩ "5" MType.movie 0 0).2.1.files
      = (⟨[], []⟩ : FS).files := by
  have h := (c10_dirs_created_on_miss
    ⟨none, fun _ => Except.error "e", fun _ _ => Except.error "e",
      fun _ => TrResp.fail⟩ [] ⟨[], []⟩ "5" MType.movie 0 0).1 (by decide)
  exact ⟨h.1, h.2 (by decide)⟩

/-- C8: every state of the translation request queue reachable from the
initial module state has at most `MAX_CONCURRENT_REQUESTS = 10` requests in
flight: `processQueue` starts a queued request only under its
`activeRequests < MAX_CONCURRENT_REQUESTS` guard, and settling decrements
the active count. -/
theorem c8_concurrency_bound (s : QState)
    (h : Relation.ReflTransGen QStep ⟨0, 0⟩ s) :
    s.active ≤ MAX_CONCURRENT_REQUESTS := by
  induction h with
  | refl => decide
  | tail hpre hstep ih =>
    cases hstep with
    | enqueue => exact processQueue_active_le _ ih
    | settle hb =>
      refine processQueue_active_le _ ?_
      show _ - 1 ≤ _
      omega

/-- C8 witness: the state after one enqueue event is within the bound. -/
theorem c8_witness :
    (processQueue ⟨1, 0⟩).active ≤ MAX_CONCURRENT_REQUESTS :=
  c8_concurrency_bound (processQueue ⟨1, 0⟩)
    (Relation.ReflTransGen.single (QStep.enqueue ⟨0, 0⟩))

end KurdForest
